import Mathlib

/-!
Verification of the prompt-retry module
(`src/agents/pi-embedded-runner/run/prompt-retry.ts`).

The module classifies arbitrary provider-shaped JavaScript error values as
retryable or fatal, extracts human-readable messages and provider retry
hints from them, and orchestrates bounded re-invocation of an asynchronous
operation with exponential backoff.

JavaScript error values are embedded as the inductive type `JSVal`: null,
undefined, strings, (integer) numbers, booleans and objects.  An object
carries a flag marking it as an `Error` instance (for `instanceof Error`
checks) and an association list of own properties; keys are assumed
distinct, property lookup takes the first binding.
-/

mutual
/-- A JavaScript value as seen by the error-classification code.  Numbers are
modelled as integers (every numeric field the module inspects is an integer:
HTTP status codes, `retry_after` seconds). -/
inductive JSVal : Type where
  | null : JSVal
  | undef : JSVal
  | vstr : String → JSVal
  | vnum : Int → JSVal
  | vbool : Bool → JSVal
  | vobj : Bool → JSFields → JSVal

/-- The own properties of an embedded JavaScript object, in insertion order. -/
inductive JSFields : Type where
  | nil : JSFields
  | cons : String → JSVal → JSFields → JSFields
end

/-- Build a property list from a Lean list literal. -/
def fieldsOf : List (String × JSVal) → JSFields
  | [] => JSFields.nil
  | (k, v) :: rest => JSFields.cons k v (fieldsOf rest)

/-- A plain (non-`Error`) object literal. -/
def mkObj (l : List (String × JSVal)) : JSVal :=
  JSVal.vobj false (fieldsOf l)

/-- Property access `obj[k]`: first binding wins, missing keys read as
`undefined`. -/
def findField : JSFields → String → JSVal
  | JSFields.nil, _ => JSVal.undef
  | JSFields.cons k' v rest, k => if k' = k then v else findField rest k

/-- JavaScript `value === undefined`. -/
def isUndef : JSVal → Bool
  | JSVal.undef => true
  | _ => false

/-- JavaScript `value == null` (nullish), the test behind the `??` operator. -/
def nullish : JSVal → Bool
  | JSVal.undef => true
  | JSVal.null => true
  | _ => false

/-- `typeof value === "string" && value`: a non-empty string, as tested by the
per-key search loops in `extractErrorMessage`. -/
def truthyStr : JSVal → Option String
  | JSVal.vstr s => if s = "" then none else some s
  | _ => none

/-- Characters matched by the JavaScript regex class `\s` (ASCII part). -/
def isSpaceChar (c : Char) : Bool :=
  c = ' ' || c = '\t' || c = '\n' || c = '\r' || c = '\x0c' || c = '\x0b'

/-- Characters matched by `[_\s]`, the optional separator in the formatted
error patterns. -/
def isSepChar (c : Char) : Bool :=
  c = '_' || isSpaceChar c

/-- Characters matched by `\w` (word characters, for `\b` boundaries). -/
def isWordChar (c : Char) : Bool :=
  c.isAlphanum || c = '_'

/-- `haystack.includes(needle)` on character lists. -/
def containsSub : List Char → List Char → Bool
  | cs, pat =>
    match cs with
    | [] => List.isPrefixOf pat []
    | _ :: rest => List.isPrefixOf pat cs || containsSub rest pat

/-- `haystack.includes(needle)` on strings. -/
def strIncludes (s pat : String) : Bool :=
  containsSub s.data pat.data

/-- Lower-casing, modelling `String.prototype.toLowerCase` (ASCII letters;
the characters the module's patterns mention are either ASCII or unaffected
by case mapping). -/
def jsToLower (s : String) : String :=
  ⟨s.data.map Char.toLower⟩

/-- The decimal value of a non-empty, all-digit character list. -/
def digitsToNat : List Char → Option Nat
  | [] => none
  | cs =>
    if cs.all Char.isDigit then
      some (cs.foldl (fun a c => a * 10 + (c.toNat - 48)) 0)
    else none

/-- Leading and trailing whitespace stripped, as `Number()` does before
parsing. -/
def trimWs (cs : List Char) : List Char :=
  ((cs.dropWhile isSpaceChar).reverse.dropWhile isSpaceChar).reverse

/-- JavaScript `Number(s)` restricted to the shapes the module meets
(optional-sign decimal integers; an empty or all-whitespace string converts
to 0); `none` models `NaN`. -/
def jsNumberOfString (s : String) : Option Int :=
  match trimWs s.data with
  | [] => some 0
  | '-' :: rest => (digitsToNat rest).map (fun n => -(n : Int))
  | '+' :: rest => (digitsToNat rest).map (fun n => (n : Int))
  | cs => (digitsToNat cs).map (fun n => (n : Int))

/-- Hexadecimal digit for the `\u00XX` escapes of `JSON.stringify`. -/
def hexDigitChar (n : Nat) : Char :=
  if n < 10 then Char.ofNat (n + 48) else Char.ofNat (n + 87)

/-- One character of a JSON string literal, as `JSON.stringify` escapes it. -/
def jsonEscapeChar (c : Char) : String :=
  if c = '"' then ("\\\"")
  else if c = '\\' then ("\\\\")
  else if c = '\n' then ("\\n")
  else if c = '\t' then ("\\t")
  else if c = '\r' then ("\\r")
  else if c = '\x08' then ("\\b")
  else if c = '\x0c' then ("\\f")
  else if c.toNat < 32 then
    "\\u00" ++ String.singleton (hexDigitChar (c.toNat / 16))
      ++ String.singleton (hexDigitChar (c.toNat % 16))
  else String.singleton c

/-- A JSON string literal for `s`. -/
def jsonEscape (s : String) : String :=
  s.data.foldl (fun acc c => acc ++ jsonEscapeChar c) ""

/-- Fields `JSON.stringify` omits: `undefined`-valued properties, and the
non-enumerable `message`/`stack` of `Error` instances. -/
def jsonSkipsField (isError : Bool) (k : String) (v : JSVal) : Bool :=
  isUndef v || (isError && (k = "message" || k = "stack"))

mutual
/-- `JSON.stringify` on an embedded value (`undefined` yields no string in
JavaScript; the module only ever stringifies objects, where that case cannot
arise, so it is mapped to `""`). -/
def jsonStringify : JSVal → String
  | JSVal.null => "null"
  | JSVal.undef => ""
  | JSVal.vstr s => "\"" ++ jsonEscape s ++ "\""
  | JSVal.vnum n => toString n
  | JSVal.vbool b => cond b ("true") "false"
  | JSVal.vobj isErr fields =>
    "\x7b" ++ String.intercalate (",") (jsonFieldStrings isErr fields) ++ "\x7d"

/-- The `"key":value` pieces of a stringified object, in property order. -/
def jsonFieldStrings : Bool → JSFields → List String
  | _, JSFields.nil => []
  | isErr, JSFields.cons k v rest =>
    if jsonSkipsField isErr k v then jsonFieldStrings isErr rest
    else ("\"" ++ jsonEscape k ++ "\":" ++ jsonStringify v) :: jsonFieldStrings isErr rest
end

/-- The per-key search of the nested-error branch of `extractErrorMessage`:
`nested[key] ?? errObj[key]`, accepted when it is a non-empty string. -/
def firstStringKeyNested (nested outer : JSFields) : List String → Option String
  | [] => none
  | k :: ks =>
    let nv := findField nested k
    let v := if nullish nv then findField outer k else nv
    match truthyStr v with
    | some s => some s
    | none => firstStringKeyNested nested outer ks

/-- The per-key search of the direct branch of `extractErrorMessage`. -/
def firstStringKey (fields : JSFields) : List String → Option String
  | [] => none
  | k :: ks =>
    match truthyStr (findField fields k) with
    | some s => some s
    | none => firstStringKey fields ks

/-- The `typeof err === "object"` branch of `extractErrorMessage`
(prompt-retry.ts lines 87–112): nested `error` object first, then direct
properties, then `JSON.stringify`. -/
def objectMessage (isErr : Bool) (fields : JSFields) : String :=
  match findField fields ("error") with
  | JSVal.vobj _ nfields =>
    match firstStringKeyNested nfields fields ["message", "error", "type", "code"] with
    | some s => s
    | none => jsonStringify (findField fields ("error"))
  | _ =>
    match firstStringKey fields ["message", "error", "code", "reason", "type"] with
    | some s => s
    | none => jsonStringify (JSVal.vobj isErr fields)

/-- `extractErrorMessage` (prompt-retry.ts lines 74–115): extract a message
string from a provider-shaped error value. -/
def extractErrorMessage : JSVal → String
  | JSVal.null => ""
  | JSVal.undef => ""
  | JSVal.vstr s => s
  | JSVal.vobj isErr fields =>
    if isErr then
      match truthyStr (findField fields ("message")) with
      | some s => s
      | none => objectMessage isErr fields
    else objectMessage isErr fields
  | JSVal.vnum n => toString n
  | JSVal.vbool b => cond b ("true") "false"

/-- `new Error(s)`: an `Error` instance whose `message` property is `s`. -/
def errorWithMessage (s : String) : JSVal :=
  JSVal.vobj true (fieldsOf [("message", JSVal.vstr s)])

/-- The direct `status` property probe shared by both levels of
`extractStatusCode` (prompt-retry.ts lines 17–26 and 31–39): a numeric
`status` is returned as-is; a string `status` is returned when `Number`
parses it; anything else falls through. -/
def statusFieldOf (fields : JSFields) : Option Int :=
  match findField fields ("status") with
  | JSVal.vnum n => some n
  | JSVal.vstr s => jsNumberOfString s
  | _ => none

/-- The scan of the regex `/HTTP[^\d]*(\d{3})/i`: after `HTTP`, `[^\d]*`
necessarily stops at the first digit, and `(\d{3})` needs the next three
characters to be digits; on failure the engine restarts at the next
position, i.e. at the next occurrence of `HTTP`. -/
def skipNonDigits : List Char → List Char
  | [] => []
  | c :: cs => if c.isDigit then c :: cs else skipNonDigits cs

/-- `(\d{3})` at the head of the list, as a number. -/
def threeDigitCode : List Char → Option Int
  | a :: b :: c :: _ =>
    if a.isDigit && b.isDigit && c.isDigit then
      some (((a.toNat - 48) * 100 + (b.toNat - 48) * 10 + (c.toNat - 48) : Nat) : Int)
    else none
  | _ => none

/-- First match of `/HTTP[^\d]*(\d{3})/i` in a character list. -/
def httpScan : List Char → Option Int
  | [] => none
  | c :: cs =>
    match
      (if List.isPrefixOf ['h', 't', 't', 'p'] ((c :: cs).map Char.toLower) then
        threeDigitCode (skipNonDigits ((c :: cs).drop 4))
      else none) with
    | some code => some code
    | none => httpScan cs

/-- `extractStatusCode` (prompt-retry.ts lines 10–50): direct `status`
property, then `error.status`, then an `HTTP nnn` pattern in the extracted
message; non-objects (and `null`) have no status code. -/
def extractStatusCode : JSVal → Option Int
  | JSVal.vobj isErr fields =>
    match statusFieldOf fields with
    | some n => some n
    | none =>
      match
        (match findField fields ("error") with
         | JSVal.vobj _ nfields => statusFieldOf nfields
         | _ => none) with
      | some n => some n
      | none => httpScan (extractErrorMessage (JSVal.vobj isErr fields)).data
  | _ => none

/-- `isRetryableStatusCode` (prompt-retry.ts lines 56–64). -/
def isRetryableStatusCode (code : Int) : Bool :=
  ([429, 500, 502, 503, 504] : List Int).contains code

/-- Modelled from the spec: `isRateLimitErrorMessage` lives in
`src/agents/pi-embedded-helpers/errors.ts`, which is not part of the
provided source.  The spec (§4.1) describes it as matching, in the already
lower-cased message, "any of the substrings/regexes for 'rate limit',
'too many requests', 'throttle', '429', 'tpm'/'tokens per minute',
'quota exceeded', 'resource exhausted', 'overloaded'". -/
def isRateLimitErrorMessage (msg : String) : Bool :=
  ["rate limit", "too many requests", "throttle", "429", "tpm",
   "tokens per minute", "quota exceeded", "resource exhausted",
   "overloaded"].any (fun p => strIncludes msg p)

/-- The explicit SDK error types (prompt-retry.ts lines 138–146). -/
def sdkErrorTypes : List String :=
  ["rate_limit_error", "rate_limit_exceeded", "overloaded_error",
   "throttling_exception", "resource_exhausted", "resource_has_been_exhausted",
   "tokens_per_minute"]

/-- Chinese provider error patterns (prompt-retry.ts line 155). -/
def chineseErrorPatterns : List String :=
  ["请求额度超限", "请求频率超限", "限流", "速率限制"]

/-- Match a sequence of literal tokens separated by the optional one-character
separator `[_\s]?`, anchored at the start of `cs`. -/
def matchToksAt : List (List Char) → List Char → Bool
  | [], _ => true
  | t :: rest, cs =>
    List.isPrefixOf t cs &&
      (match rest with
       | [] => true
       | _ :: _ =>
         let cs' := cs.drop t.length
         matchToksAt rest cs' ||
           (match cs' with
            | c :: cs'' => isSepChar c && matchToksAt rest cs''
            | [] => false))

/-- Match the token sequence anywhere in `cs`. -/
def scanToks (toks : List (List Char)) : List Char → Bool
  | [] => matchToksAt toks []
  | c :: cs => matchToksAt toks (c :: cs) || scanToks toks cs

/-- `tokens` joined by `[_\s]?` occurs somewhere in `msg`. -/
def containsTokSeq (msg : String) (toks : List String) : Bool :=
  scanToks (toks.map String.data) msg.data

/-- The formatted error patterns (prompt-retry.ts lines 165–176), each regex
rendered as an equivalent matcher on the already lower-cased message:
`/api[_\s]?rate[_\s]?limit/` is the token sequence api·rate·limit;
`/too[_\s]?many[_\s]?requests?/` matches exactly when too·many·request
occurs (the optional trailing `s` never affects matchability), likewise the
optional trailing `[_\s]?(?:exceeded|error)?` of
`/rate[_\s]?limit[_\s]?(?:exceeded|error)?/`;
`/service[_\s]?(?:unavailable|temporarily[_\s]?overloaded)/` splits into its
two alternatives; the fixed-text regexes are substring tests. -/
def formattedErrorPatternsHold (msg : String) : Bool :=
  containsTokSeq msg ["api", "rate", "limit"] ||
  strIncludes msg ("api rate limit reached") ||
  containsTokSeq msg ["too", "many", "request"] ||
  containsTokSeq msg ["tpm", "limit"] ||
  strIncludes msg ("tokens per minute") ||
  containsTokSeq msg ["rate", "limit"] ||
  strIncludes msg ("overloaded") ||
  containsTokSeq msg ["service", "unavailable"] ||
  containsTokSeq msg ["service", "temporarily", "overloaded"] ||
  strIncludes msg ("请") ||
  strIncludes msg ("重试")

/-- `pat` occurs at index `i` of `cs`. -/
def prefixAt (cs pat : List Char) (i : Nat) : Bool :=
  List.isPrefixOf pat (cs.drop i)

/-- A `\b` boundary on the left of index `i` (given a word character at `i`). -/
def wordBoundaryBefore (cs : List Char) (i : Nat) : Bool :=
  i == 0 || !(isWordChar (cs.getD (i - 1) ' '))

/-- A `\b` boundary on the right of index `i - 1` (given a word character
there): index `i` is past the end or holds a non-word character. -/
def wordBoundaryAt (cs : List Char) (i : Nat) : Bool :=
  Nat.ble cs.length i || !(isWordChar (cs.getD i ' '))

/-- Length of the leading whitespace run. -/
def countLeadingWs : List Char → Nat
  | c :: cs => if isSpaceChar c then countLeadingWs cs + 1 else 0
  | [] => 0

/-- Index just past the `\s*` run starting at `i`. -/
def skipWsFrom (cs : List Char) (i : Nat) : Nat :=
  i + countLeadingWs (cs.drop i)

/-- No newline between indices `a` (inclusive) and `b` (exclusive): `.`
in the HTTP text patterns does not match across lines. -/
def noNewlineBetween (cs : List Char) (a b : Nat) : Bool :=
  ((cs.drop a).take (b - a)).all (fun c => c != '\n')

/-- `/\b502\b.*\bBad\s*Gateway\b/i` on the lower-cased message: a
word-bounded `502`, then — on the same line — a word-bounded `bad`, optional
whitespace, and `gateway` with a word boundary after it. -/
def http502PatternHolds (msg : String) : Bool :=
  let cs := msg.data
  let n := cs.length
  (List.range n).any (fun i =>
    prefixAt cs ['5', '0', '2'] i && wordBoundaryBefore cs i && wordBoundaryAt cs (i + 3) &&
      (List.range n).any (fun j =>
        Nat.ble (i + 3) j && prefixAt cs ['b', 'a', 'd'] j && wordBoundaryBefore cs j &&
          noNewlineBetween cs (i + 3) j &&
          (let k := skipWsFrom cs (j + 3)
           prefixAt cs (("gateway").data) k && wordBoundaryAt cs (k + 7))))

/-- `/\b503\b.*\bService\s*(?:Unavailable|Temporarily\s*Overloaded)/i` on the
lower-cased message (no trailing word boundary in the source regex). -/
def http503PatternHolds (msg : String) : Bool :=
  let cs := msg.data
  let n := cs.length
  (List.range n).any (fun i =>
    prefixAt cs ['5', '0', '3'] i && wordBoundaryBefore cs i && wordBoundaryAt cs (i + 3) &&
      (List.range n).any (fun j =>
        Nat.ble (i + 3) j && prefixAt cs (("service").data) j && wordBoundaryBefore cs j &&
          noNewlineBetween cs (i + 3) j &&
          (let k := skipWsFrom cs (j + 7)
           prefixAt cs (("unavailable").data) k ||
             (prefixAt cs (("temporarily").data) k &&
               prefixAt cs (("overloaded").data) (skipWsFrom cs (k + 11))))))

/-- `isRetryableError` (prompt-retry.ts lines 122–189): retryable HTTP status
code first, then the rate-limit message heuristics over the lower-cased
extracted message. -/
def isRetryableError (err : JSVal) : Bool :=
  (match extractStatusCode err with
   | some code => isRetryableStatusCode code
   | none => false) ||
  (let msg := jsToLower (extractErrorMessage err)
   isRateLimitErrorMessage msg ||
   sdkErrorTypes.any (fun t => strIncludes msg t) ||
   chineseErrorPatterns.any (fun p => strIncludes msg p) ||
   formattedErrorPatternsHold msg ||
   http502PatternHolds msg ||
   http503PatternHolds msg)

/-- The `retry_after` property probe shared by both levels of
`getRetryAfterMs` (prompt-retry.ts lines 200–222): numeric seconds, or a
`Number`-parsable string of seconds, converted to milliseconds. -/
def retryAfterFieldOf (fields : JSFields) : Option Int :=
  match findField fields ("retry_after") with
  | JSVal.vnum n => some (n * 1000)
  | JSVal.vstr s => (jsNumberOfString s).map (fun n => n * 1000)
  | _ => none

/-- The maximal leading digit run as a number (`(\d+)` with `Number` on the
capture). -/
def leadingNumber (cs : List Char) : Option Nat :=
  digitsToNat (cs.takeWhile Char.isDigit)

/-- First match of `/retry_after[:\s]*(\d+)/i`: after the literal,
`[:\s]*` necessarily stops exactly at the first digit. -/
def scanRetryAfterUnderscore : List Char → Option Nat
  | [] => none
  | c :: cs =>
    match
      (if List.isPrefixOf (("retry_after").data) ((c :: cs).map Char.toLower) then
        leadingNumber (((c :: cs).drop 11).dropWhile (fun d => d = ':' || isSpaceChar d))
      else none) with
    | some n => some n
    | none => scanRetryAfterUnderscore cs

/-- First match of `/retry\s*after[:\s]*(\d+)/i`: between `retry` and
`after`, the greedy `\s*` can only stop at the first non-space character. -/
def scanRetryAfterSpaced : List Char → Option Nat
  | [] => none
  | c :: cs =>
    match
      (if List.isPrefixOf (("retry").data) ((c :: cs).map Char.toLower) then
        let afterWs := ((c :: cs).drop 5).dropWhile isSpaceChar
        if List.isPrefixOf (("after").data) (afterWs.map Char.toLower) then
          leadingNumber ((afterWs.drop 5).dropWhile (fun d => d = ':' || isSpaceChar d))
        else none
      else none) with
    | some n => some n
    | none => scanRetryAfterSpaced cs

/-- `getRetryAfterMs` (prompt-retry.ts lines 194–232): explicit `retry_after`
field (direct, then nested under `error`), else the message patterns
`retry_after: N` / `retry after N`, seconds converted to milliseconds. -/
def getRetryAfterMs (err : JSVal) : Option Int :=
  let msg := extractErrorMessage err
  let fieldRes : Option Int :=
    match err with
    | JSVal.vobj _ fields =>
      (match retryAfterFieldOf fields with
       | some r => some r
       | none =>
         match findField fields ("error") with
         | JSVal.vobj _ nfields => retryAfterFieldOf nfields
         | _ => none)
    | _ => none
  match fieldRes with
  | some r => some r
  | none =>
    match scanRetryAfterUnderscore msg.data with
    | some n => some ((n : Int) * 1000)
    | none => (scanRetryAfterSpaced msg.data).map (fun n => (n : Int) * 1000)

/-- `OutboundRetryConfig` as `runWithPromptRetry` consumes it: four optional
fields (spec §3: `attempts` is an integer ≥ 1, the delays are non-negative
integers of milliseconds, `jitter` a number in `[0,1]`, here a rational). -/
structure OutboundRetryConfig : Type where
  attempts : Option Nat
  minDelayMs : Option Nat
  maxDelayMs : Option Nat
  jitter : Option Rat

/-- The retry parameters after defaulting. -/
structure RetryParams : Type where
  attempts : Nat
  minDelayMs : Nat
  maxDelayMs : Nat
  jitter : Rat

/-- The defaulting of omitted config fields performed by `runWithPromptRetry`
(prompt-retry.ts lines 253–256): `attempts ?? 3`, `minDelayMs ?? 1000`,
`maxDelayMs ?? 60000`, `jitter ?? 0.2`. -/
def resolveRetryParams (c : OutboundRetryConfig) : RetryParams :=
  ⟨c.attempts.getD 3, c.minDelayMs.getD 1000, c.maxDelayMs.getD 60000,
    c.jitter.getD (1 / 5)⟩

/-- One attempt of the wrapped asynchronous operation: a result or a thrown
error value. -/
inductive Outcome (T : Type) : Type where
  | ok : T → Outcome T
  | err : JSVal → Outcome T

/-- What `runWithPromptRetry` delivers to its caller. -/
inductive RunResult (T : Type) : Type where
  | ok : T → RunResult T
  | raised : JSVal → RunResult T

/-- Observable trace of one orchestrated call: the delivered result, the
delays slept between attempts (in order), and how many times the operation
was invoked. -/
structure RunTrace (T : Type) : Type where
  result : RunResult T
  delays : List Int
  calls : Nat

/-- Modelled from the spec: the backoff computation of `retryAsync`
(`src/infra/retry.ts`, not part of the provided source), spec §4.2 step 4:
`delay = min(maxDelayMs, minDelayMs * 2^(i-1))`, jittered to
`round(delay * (1 + U))` with `U` the uniform draw in `[-jitter, +jitter]`,
clamped to `≥ 0`.  `u` is the realized draw for this wait. -/
def backoffDelay (i minD maxD : Nat) (u : Rat) : Int :=
  let base : Nat := min maxD (minD * 2 ^ (i - 1))
  max 0 (round ((base : Rat) * (1 + u)))

/-- Modelled from the spec (§4.1/§4.2 step 4): the provider-suggested
`retryAfterMs`, when present, overrides the computed exponential delay for
that attempt; otherwise the jittered exponential backoff applies. -/
def delayForAttempt (e : JSVal) (i : Nat) (p : RetryParams) (u : Rat) : Int :=
  match getRetryAfterMs e with
  | some r => r
  | none => backoffDelay i p.minDelayMs p.maxDelayMs u

/-- Modelled from the spec: the attempt loop of `retryAsync`
(`src/infra/retry.ts`, not part of the provided source), spec §4.2 steps 1–7,
instantiated by `runWithPromptRetry` with `shouldRetry = isRetryableError`
and `retryAfterMs = getRetryAfterMs`.  `i` is the 1-based attempt index,
`rem` the number of attempts still allowed after this one, `u` the oracle of
jitter draws.  On success the result returns immediately; a non-retryable
error, or any error on the final attempt (`rem = 0`, i.e. `i == attempts`),
re-raises the error value itself; otherwise the computed delay is slept and
the next attempt made.  Cancellation is not modelled: no signal fires
during the run. -/
def retryGo {T : Type} (op : Nat → Outcome T) (p : RetryParams) (u : Nat → Rat) :
    Nat → Nat → RunTrace T
  | i, 0 =>
    match op i with
    | Outcome.ok v => ⟨RunResult.ok v, [], 1⟩
    | Outcome.err e => ⟨RunResult.raised e, [], 1⟩
  | i, rem + 1 =>
    match op i with
    | Outcome.ok v => ⟨RunResult.ok v, [], 1⟩
    | Outcome.err e =>
      if isRetryableError e then
        let rest := retryGo op p u (i + 1) rem
        ⟨rest.result, delayForAttempt e i p (u i) :: rest.delays, rest.calls + 1⟩
      else ⟨RunResult.raised e, [], 1⟩

/-- Modelled from the spec: `retryAsync` runs attempts 1 … `p.attempts`. -/
def retryAsync {T : Type} (op : Nat → Outcome T) (p : RetryParams)
    (u : Nat → Rat) : RunTrace T :=
  retryGo op p u 1 (p.attempts - 1)

/-- `runWithPromptRetry` (prompt-retry.ts lines 241–272): without a retry
config the operation runs exactly once with no retry logic; with one, the
defaulted parameters are handed to `retryAsync` together with
`isRetryableError` and `getRetryAfterMs` (already baked into `retryGo`). -/
def runWithPromptRetry {T : Type} (op : Nat → Outcome T)
    (retryConfig : Option OutboundRetryConfig) (u : Nat → Rat) : RunTrace T :=
  match retryConfig with
  | none =>
    match op 1 with
    | Outcome.ok v => ⟨RunResult.ok v, [], 1⟩
    | Outcome.err e => ⟨RunResult.raised e, [], 1⟩
  | some cfg => retryAsync op (resolveRetryParams cfg) u

/-! ### Helper lemmas about the retry loop -/

/-- Rounding is monotone on the rationals. -/
theorem round_rat_mono {x y : Rat} (h : x ≤ y) : round x ≤ round y := by
  rw [round_eq, round_eq]
  exact Int.floor_mono (by linarith)

/-- Rounding a non-negative rational is non-negative. -/
theorem round_rat_nonneg {x : Rat} (h : 0 ≤ x) : 0 ≤ round x := by
  rw [round_eq]
  exact Int.floor_nonneg.mpr (by linarith)

/-- The jittered exponential backoff is non-negative and, when the jitter
draw honours its advertised range, bounded by
`round(maxDelayMs * (1 + jitter))`. -/
theorem backoffDelay_bounds (i minD maxD : Nat) (jit u : Rat)
    (h1 : -jit ≤ u) (h2 : u ≤ jit) :
    0 ≤ backoffDelay i minD maxD u ∧
      backoffDelay i minD maxD u ≤ round ((maxD : Rat) * (1 + jit)) := by
  have hjit : 0 ≤ jit := by linarith
  unfold backoffDelay
  set base : Nat := min maxD (minD * 2 ^ (i - 1)) with hbase
  have hb0 : (0 : Rat) ≤ (base : Rat) := by positivity
  have hbm : (base : Rat) ≤ (maxD : Rat) := by
    exact_mod_cast Nat.min_le_left _ _
  have hprod : (base : Rat) * (1 + u) ≤ (maxD : Rat) * (1 + jit) := by
    have ha : (base : Rat) * u ≤ (base : Rat) * jit :=
      mul_le_mul_of_nonneg_left h2 hb0
    have hb : (base : Rat) * jit ≤ (maxD : Rat) * jit :=
      mul_le_mul_of_nonneg_right hbm hjit
    nlinarith
  have hR0 : 0 ≤ round ((maxD : Rat) * (1 + jit)) :=
    round_rat_nonneg (by positivity)
  exact ⟨le_max_left _ _, max_le hR0 (round_rat_mono hprod)⟩

/-- The retry loop invokes the operation at least once. -/
theorem retryGo_calls_pos {T : Type} (op : Nat → Outcome T) (p : RetryParams)
    (u : Nat → Rat) (i rem : Nat) : 1 ≤ (retryGo op p u i rem).calls := by
  cases rem with
  | zero => cases hop : op i <;> simp [retryGo, hop]
  | succ rem' =>
    cases hop : op i with
    | ok v => simp [retryGo, hop]
    | err e =>
      simp only [retryGo, hop]
      split <;> simp

/-- The retry loop makes at most `rem + 1` invocations. -/
theorem retryGo_calls_le {T : Type} (op : Nat → Outcome T) (p : RetryParams)
    (u : Nat → Rat) (rem : Nat) :
    ∀ i, (retryGo op p u i rem).calls ≤ rem + 1 := by
  induction rem with
  | zero =>
    intro i
    cases hop : op i <;> simp [retryGo, hop]
  | succ rem' ih =>
    intro i
    cases hop : op i with
    | ok v => simp [retryGo, hop]
    | err e =>
      simp only [retryGo, hop]
      split
      · have := ih (i + 1)
        simp
        omega
      · simp

/-- A raised error is exactly the error value thrown by the final attempt
made (attempt `i + calls - 1` when the loop starts at `i`). -/
theorem retryGo_raised {T : Type} (op : Nat → Outcome T) (p : RetryParams)
    (u : Nat → Rat) (rem : Nat) :
    ∀ i e, (retryGo op p u i rem).result = RunResult.raised e →
      op (i + (retryGo op p u i rem).calls - 1) = Outcome.err e := by
  induction rem with
  | zero =>
    intro i e h
    cases hop : op i with
    | ok v => simp [retryGo, hop] at h
    | err e' =>
      simp only [retryGo, hop] at h ⊢
      simp only [RunResult.raised.injEq] at h
      subst h
      simpa using hop
  | succ rem' ih =>
    intro i e h
    cases hop : op i with
    | ok v => simp [retryGo, hop] at h
    | err e' =>
      simp only [retryGo, hop] at h ⊢
      split at h
      · next hr =>
        simp only [] at h
        have h2 := ih (i + 1) e h
        simp only [hr, if_true]
        have harith : i + ((retryGo op p u (i + 1) rem').calls + 1) - 1 =
            i + 1 + (retryGo op p u (i + 1) rem').calls - 1 := by omega
        rw [harith]
        exact h2
      · next hr =>
        simp only [hr, if_false] at h ⊢
        simp only [RunResult.raised.injEq] at h
        subst h
        simpa using hop

/-- Every delay the retry loop sleeps is either exactly a provider
`retry_after` hint extracted from some attempt's error, or lies within
`[0, round(maxDelayMs * (1 + jitter))]`. -/
theorem retryGo_delays {T : Type} (op : Nat → Outcome T) (p : RetryParams)
    (u : Nat → Rat) (hu : ∀ j, -p.jitter ≤ u j ∧ u j ≤ p.jitter) (rem : Nat) :
    ∀ i, ∀ d ∈ (retryGo op p u i rem).delays,
      (∃ j e, op j = Outcome.err e ∧ getRetryAfterMs e = some d) ∨
        (0 ≤ d ∧ d ≤ round ((p.maxDelayMs : Rat) * (1 + p.jitter))) := by
  induction rem with
  | zero =>
    intro i d hd
    cases hop : op i <;> simp [retryGo, hop] at hd
  | succ rem' ih =>
    intro i d hd
    cases hop : op i with
    | ok v => simp [retryGo, hop] at hd
    | err e =>
      simp only [retryGo, hop] at hd
      split at hd
      · simp only [List.mem_cons] at hd
        rcases hd with hd | hd
        · subst hd
          unfold delayForAttempt
          cases hra : getRetryAfterMs e with
          | some r => exact Or.inl ⟨i, e, hop, by rw [hra]⟩
          | none => exact Or.inr (backoffDelay_bounds _ _ _ _ _ (hu i).1 (hu i).2)
        · exact ih (i + 1) d hd
      · simp at hd

/-! ### Sample values used by witnesses and counterexamples -/

/-- The rate-limit error object from the spec's examples:
`{status: 429, message: "Rate limit exceeded"}`. -/
def sampleRateLimitError : JSVal :=
  mkObj [("status", JSVal.vnum 429), ("message", JSVal.vstr ("Rate limit exceeded"))]

/-- The non-retryable error from the spec's examples:
`new Error("Invalid API key")`. -/
def sampleAuthError : JSVal :=
  errorWithMessage ("Invalid API key")

/-- A fully explicit retry config. -/
def sampleConfig : OutboundRetryConfig :=
  ⟨some 3, some 1000, some 60000, some 0⟩

/-- An operation that always throws the non-retryable sample error. -/
def sampleFailOp : Nat → Outcome Unit :=
  fun _ => Outcome.err sampleAuthError

/-- An operation that always throws the retryable sample error. -/
def sampleRateLimitOp : Nat → Outcome Unit :=
  fun _ => Outcome.err sampleRateLimitError

/-- The trivial jitter oracle (all draws zero). -/
def zeroJitter : Nat → Rat :=
  fun _ => 0

/-! ### The claims -/

/-- C1: for every retry configuration passed to `runWithPromptRetry` whose
effective attempt count (after defaulting) is at least 1 — the domain the
spec's data model declares for `RetryConfig` (`attempts: integer ≥ 1`) —
the wrapped operation is invoked at least once and at most `attempts`
times, regardless of how the attempts fail. -/
theorem claim_C1_attempt_bounds {T : Type} (op : Nat → Outcome T)
    (cfg : OutboundRetryConfig) (u : Nat → Rat)
    (h : 1 ≤ (resolveRetryParams cfg).attempts) :
    1 ≤ (runWithPromptRetry op (some cfg) u).calls ∧
      (runWithPromptRetry op (some cfg) u).calls ≤ (resolveRetryParams cfg).attempts := by
  simp only [runWithPromptRetry, retryAsync]
  constructor
  · exact retryGo_calls_pos op (resolveRetryParams cfg) u 1
      ((resolveRetryParams cfg).attempts - 1)
  · have hle := retryGo_calls_le op (resolveRetryParams cfg) u
      ((resolveRetryParams cfg).attempts - 1) 1
    omega

/-- Witness for C1 at a concrete run: an always-failing retryable operation
under `attempts = 3` is invoked between 1 and 3 times. -/
theorem claim_C1_attempt_bounds_witness :
    1 ≤ (resolveRetryParams sampleConfig).attempts ∧
      1 ≤ (runWithPromptRetry sampleRateLimitOp (some sampleConfig) zeroJitter).calls ∧
      (runWithPromptRetry sampleRateLimitOp (some sampleConfig) zeroJitter).calls ≤
        (resolveRetryParams sampleConfig).attempts :=
  ⟨by decide,
    (claim_C1_attempt_bounds sampleRateLimitOp sampleConfig zeroJitter (by decide)).1,
    (claim_C1_attempt_bounds sampleRateLimitOp sampleConfig zeroJitter (by decide)).2⟩

/-- C2: whenever `runWithPromptRetry` terminates by raising an error —
whether because some attempt's error was classified non-retryable or
because a retryable error persisted through the final attempt — the raised
value is exactly the error value thrown by the last attempt made: the very
same object, unwrapped and unmodified. -/
theorem claim_C2_reraises_original_error {T : Type} (op : Nat → Outcome T)
    (rc : Option OutboundRetryConfig) (u : Nat → Rat) (e : JSVal)
    (h : (runWithPromptRetry op rc u).result = RunResult.raised e) :
    op ((runWithPromptRetry op rc u).calls) = Outcome.err e := by
  cases rc with
  | none =>
    simp only [runWithPromptRetry] at h ⊢
    cases hop : op 1 with
    | ok v => rw [hop] at h; simp at h
    | err e' =>
      rw [hop] at h ⊢
      simp only [RunResult.raised.injEq] at h
      subst h
      rfl
  | some cfg =>
    simp only [runWithPromptRetry, retryAsync] at h ⊢
    have h2 := retryGo_raised op (resolveRetryParams cfg) u
      ((resolveRetryParams cfg).attempts - 1) 1 e h
    have harith : 1 + (retryGo op (resolveRetryParams cfg) u 1
        ((resolveRetryParams cfg).attempts - 1)).calls - 1 =
        (retryGo op (resolveRetryParams cfg) u 1
          ((resolveRetryParams cfg).attempts - 1)).calls := by omega
    rwa [harith] at h2

/-- Witness for C2 at a concrete run: the non-retryable sample error is
raised and is the error of the single attempt made. -/
theorem claim_C2_reraises_original_error_witness :
    (runWithPromptRetry sampleFailOp (some sampleConfig) zeroJitter).result =
        RunResult.raised sampleAuthError ∧
      sampleFailOp ((runWithPromptRetry sampleFailOp (some sampleConfig) zeroJitter).calls) =
        Outcome.err sampleAuthError :=
  ⟨rfl, claim_C2_reraises_original_error sampleFailOp (some sampleConfig) zeroJitter
    sampleAuthError rfl⟩

/-- C3: without a retry config, `runWithPromptRetry` invokes the operation
exactly once, sleeps no delay, and maps its outcome directly — a success is
returned, a thrown error propagates as thrown — with no classification and
no retry. -/
theorem claim_C3_no_config_runs_once {T : Type} (op : Nat → Outcome T)
    (u : Nat → Rat) :
    runWithPromptRetry op none u =
      ⟨(match op 1 with
         | Outcome.ok v => RunResult.ok v
         | Outcome.err e => RunResult.raised e), [], 1⟩ := by
  simp only [runWithPromptRetry]
  cases op 1 <;> rfl

/-- C4: whenever an HTTP-style status code can be extracted from an error
value (direct `status` field, nested `error.status` field, or an `HTTP nnn`
substring of the extracted message — all three paths folded into
`extractStatusCode`) and that code is one of 429, 500, 502, 503, 504,
`isRetryableError` returns true; the status check is the first, short-
circuiting disjunct, so this holds whatever the message contains. -/
theorem claim_C4_retryable_status_code (e : JSVal) (c : Int)
    (h1 : extractStatusCode e = some c)
    (h2 : c ∈ ([429, 500, 502, 503, 504] : List Int)) :
    isRetryableError e = true := by
  have hc : isRetryableStatusCode c = true := by
    unfold isRetryableStatusCode
    simp only [List.mem_cons, List.not_mem_nil, or_false] at h2
    rcases h2 with rfl | rfl | rfl | rfl | rfl <;> rfl
  unfold isRetryableError
  rw [h1]
  simp [hc]

/-- Witness for C4 at a concrete input: the sample 429 error. -/
theorem claim_C4_retryable_status_code_witness :
    extractStatusCode sampleRateLimitError = some 429 ∧
      (429 : Int) ∈ ([429, 500, 502, 503, 504] : List Int) ∧
      isRetryableError sampleRateLimitError = true :=
  ⟨rfl, by decide, claim_C4_retryable_status_code sampleRateLimitError 429 rfl (by decide)⟩

/-- C5: the classifier returns retryable for
`{status: 429, message: "Rate limit exceeded"}` and non-retryable for
`new Error("Invalid API key")`. -/
theorem claim_C5_classifier_examples :
    isRetryableError sampleRateLimitError = true ∧
      isRetryableError sampleAuthError = false :=
  ⟨rfl, rfl⟩

/-- C6: `getRetryAfterMs` returns `N * 1000` for a numeric `retry_after`
field directly on the error (whatever else the object holds) or nested
under `error`, and for a numeric-string field; the field wins over any
message text; failing the field, the message patterns `retry_after: N` and
`retry after N` (case-insensitive) give `N * 1000`; otherwise it returns
undefined.  When a hint is present it overrides the computed exponential
delay for that attempt, so a `retry_after: 2` hint yields exactly 2000 ms. -/
theorem claim_C6_retry_after_hint :
    (∀ (n : Int) (rest : JSFields),
        getRetryAfterMs (JSVal.vobj false (JSFields.cons ("retry_after") (JSVal.vnum n) rest)) =
          some (n * 1000)) ∧
    (∀ n : Int,
        getRetryAfterMs (mkObj [("error", mkObj [("retry_after", JSVal.vnum n)])]) =
          some (n * 1000)) ∧
    getRetryAfterMs (mkObj [("retry_after", JSVal.vstr ("2"))]) = some 2000 ∧
    getRetryAfterMs
        (mkObj [("retry_after", JSVal.vnum 2), ("message", JSVal.vstr ("retry after 99"))]) =
      some 2000 ∧
    getRetryAfterMs (errorWithMessage ("retry_after: 7")) = some 7000 ∧
    getRetryAfterMs (errorWithMessage ("Retry after 5 seconds")) = some 5000 ∧
    getRetryAfterMs (errorWithMessage ("no hint here")) = none ∧
    (∀ (e : JSVal) (i : Nat) (p : RetryParams) (v : Rat) (r : Int),
        getRetryAfterMs e = some r → delayForAttempt e i p v = r) := by
  refine ⟨?_, ?_, rfl, rfl, rfl, rfl, rfl, ?_⟩
  · intro n rest
    simp [getRetryAfterMs, retryAfterFieldOf, findField]
  · intro n
    simp [getRetryAfterMs, retryAfterFieldOf, findField, mkObj, fieldsOf]
  · intro e i p v r h
    unfold delayForAttempt
    rw [h]

/-- Witness for C6: a `retry_after: 2` field yields a 2000 ms hint which
becomes the delay of the attempt. -/
theorem claim_C6_retry_after_hint_witness :
    getRetryAfterMs (mkObj [("retry_after", JSVal.vnum 2)]) = some 2000 ∧
      delayForAttempt (mkObj [("retry_after", JSVal.vnum 2)]) 1 ⟨3, 1000, 60000, 0⟩ 0 = 2000 :=
  ⟨rfl, claim_C6_retry_after_hint.2.2.2.2.2.2.2
    (mkObj [("retry_after", JSVal.vnum 2)]) 1 ⟨3, 1000, 60000, 0⟩ 0 2000 rfl⟩

/-- An error that is retryable (status 429) and carries a provider hint
`retry_after: 120` (i.e. 120000 ms), larger than the 60000 ms delay cap. -/
def sampleHintError : JSVal :=
  mkObj [("status", JSVal.vnum 429), ("retry_after", JSVal.vnum 120)]

/-- An operation that always throws `sampleHintError`. -/
def sampleHintOp : Nat → Outcome Unit :=
  fun _ => Outcome.err sampleHintError

/-- Two attempts, `maxDelayMs = 60000`, no jitter. -/
def capConfig : OutboundRetryConfig :=
  ⟨some 2, some 1000, some 60000, some 0⟩

/-- C7 counterexample: the delay before an attempt is *not* always within
`[0, maxDelayMs]`.  With `maxDelayMs = 60000` and an error carrying
`retry_after: 120`, the provider hint overrides the backoff uncapped and the
loop sleeps 120000 ms before attempt 2. -/
theorem claim_C7_delay_range_counterexample :
    ¬ (∀ d ∈ (runWithPromptRetry sampleHintOp (some capConfig) zeroJitter).delays,
        0 ≤ d ∧ d ≤ ((resolveRetryParams capConfig).maxDelayMs : Int)) := by
  intro hAll
  have hd : (runWithPromptRetry sampleHintOp (some capConfig) zeroJitter).delays =
      [120000] := rfl
  have h := hAll 120000 (by rw [hd]; exact List.mem_singleton.mpr rfl)
  have hmax : ((resolveRetryParams capConfig).maxDelayMs : Int) = 60000 := rfl
  rw [hmax] at h
  exact absurd h.2 (by decide)

/-- C7 (amended): the delay applied before every attempt `k > 1` is either
exactly the provider `retry_after` hint extracted from some attempt's error
(taken as-is, possibly exceeding `maxDelayMs`), or lies within
`[0, round(maxDelayMs * (1 + jitter))]`, for every jitter oracle honouring
its advertised range `[-jitter, +jitter]`. -/
theorem claim_C7_delay_range_amended {T : Type} (op : Nat → Outcome T)
    (cfg : OutboundRetryConfig) (u : Nat → Rat)
    (hu : ∀ j, -(resolveRetryParams cfg).jitter ≤ u j ∧
      u j ≤ (resolveRetryParams cfg).jitter) :
    ∀ d ∈ (runWithPromptRetry op (some cfg) u).delays,
      (∃ j e, op j = Outcome.err e ∧ getRetryAfterMs e = some d) ∨
        (0 ≤ d ∧ d ≤ round (((resolveRetryParams cfg).maxDelayMs : Rat) *
          (1 + (resolveRetryParams cfg).jitter))) := by
  intro d hd
  simp only [runWithPromptRetry, retryAsync] at hd
  exact retryGo_delays op (resolveRetryParams cfg) u hu
    ((resolveRetryParams cfg).attempts - 1) 1 d hd

/-- Witness for the amended C7 at a concrete run: the 120000 ms delay of the
hint-carrying run is accounted for by the hint disjunct. -/
theorem claim_C7_delay_range_amended_witness :
    (∃ j e, sampleHintOp j = Outcome.err e ∧ getRetryAfterMs e = some 120000) ∨
      (0 ≤ (120000 : Int) ∧
        (120000 : Int) ≤ round (((resolveRetryParams capConfig).maxDelayMs : Rat) *
          (1 + (resolveRetryParams capConfig).jitter))) := by
  refine claim_C7_delay_range_amended sampleHintOp capConfig zeroJitter ?_ 120000 ?_
  · intro j
    constructor <;> simp [resolveRetryParams, capConfig, zeroJitter]
  · have hd : (runWithPromptRetry sampleHintOp (some capConfig) zeroJitter).delays =
        [120000] := rfl
    rw [hd]
    exact List.mem_singleton.mpr rfl

/-- C8: when a retry config is supplied, each omitted field is filled with
its default — `attempts = 3`, `minDelayMs = 1000`, `maxDelayMs = 60000`,
`jitter = 0.2` (the rational 1/5) — and the defaulted parameters are what
the retry loop receives. -/
theorem claim_C8_config_defaults (c : OutboundRetryConfig) :
    (c.attempts = none → (resolveRetryParams c).attempts = 3) ∧
    (c.minDelayMs = none → (resolveRetryParams c).minDelayMs = 1000) ∧
    (c.maxDelayMs = none → (resolveRetryParams c).maxDelayMs = 60000) ∧
    (c.jitter = none → (resolveRetryParams c).jitter = 1 / 5) ∧
    (∀ (T : Type) (op : Nat → Outcome T) (u : Nat → Rat),
        runWithPromptRetry op (some c) u = retryAsync op (resolveRetryParams c) u) := by
  refine ⟨?_, ?_, ?_, ?_, fun T op u => rfl⟩ <;>
    (intro h; simp [resolveRetryParams, h])

/-- Witness for C8 at the empty config: all four defaults. -/
theorem claim_C8_config_defaults_witness :
    (resolveRetryParams ⟨none, none, none, none⟩).attempts = 3 ∧
      (resolveRetryParams ⟨none, none, none, none⟩).minDelayMs = 1000 ∧
      (resolveRetryParams ⟨none, none, none, none⟩).maxDelayMs = 60000 ∧
      (resolveRetryParams ⟨none, none, none, none⟩).jitter = 1 / 5 :=
  ⟨(claim_C8_config_defaults ⟨none, none, none, none⟩).1 rfl,
    (claim_C8_config_defaults ⟨none, none, none, none⟩).2.1 rfl,
    (claim_C8_config_defaults ⟨none, none, none, none⟩).2.2.1 rfl,
    (claim_C8_config_defaults ⟨none, none, none, none⟩).2.2.2.1 rfl⟩

/-- C9: `extractErrorMessage` follows the priority order of the source — a
string is returned as-is; an `Error` instance with a non-empty message
yields that message; an object with a nested `error` object searches keys
message, error, type, code on the nested object with per-key fallback to
the outer object ("outer msg" found when the nested object lacks the key,
"t0" showing type precedes code in the nested search) and otherwise falls
back to the JSON serialization of the *nested* object; a plain object
searches message, error, code, reason, type ("r0" found under `reason`
before `type` despite insertion order) and otherwise serializes the whole
object; any other value is string-coerced. -/
theorem claim_C9_message_extraction_priority :
    (∀ s : String, extractErrorMessage (JSVal.vstr s) = s) ∧
    (∀ (s : String) (rest : JSFields), s ≠ "" →
        extractErrorMessage
          (JSVal.vobj true (JSFields.cons ("message") (JSVal.vstr s) rest)) = s) ∧
    (∀ (s : String) (nrest orest : JSFields), s ≠ "" →
        extractErrorMessage (JSVal.vobj false (JSFields.cons ("error")
          (JSVal.vobj false (JSFields.cons ("message") (JSVal.vstr s) nrest)) orest)) = s) ∧
    extractErrorMessage (mkObj [("error", mkObj [("status", JSVal.vnum 500)]),
        ("message", JSVal.vstr ("outer msg"))]) = "outer msg" ∧
    extractErrorMessage (mkObj [("error", mkObj [("code", JSVal.vstr ("c0")),
        ("type", JSVal.vstr ("t0"))])]) = "t0" ∧
    extractErrorMessage (mkObj [("error", mkObj [("status", JSVal.vnum 500)])]) =
      "\x7b\"status\":500\x7d" ∧
    extractErrorMessage (mkObj [("type", JSVal.vstr ("t0")),
        ("reason", JSVal.vstr ("r0"))]) = "r0" ∧
    extractErrorMessage (mkObj [("status", JSVal.vnum 404)]) =
      "\x7b\"status\":404\x7d" ∧
    extractErrorMessage (JSVal.vnum 42) = "42" ∧
    extractErrorMessage (JSVal.vbool true) = "true" := by
  refine ⟨fun s => rfl, ?_, ?_, rfl, rfl, rfl, rfl, rfl, rfl, rfl⟩
  · intro s rest h
    simp [extractErrorMessage, findField, truthyStr, h]
  · intro s nrest orest h
    simp [extractErrorMessage, objectMessage, firstStringKeyNested, findField,
      truthyStr, nullish, h]

/-- Witness for C9 at concrete non-empty messages. -/
theorem claim_C9_message_extraction_priority_witness :
    extractErrorMessage (JSVal.vstr ("boom")) = "boom" ∧
      extractErrorMessage (errorWithMessage ("kaput")) = "kaput" ∧
      extractErrorMessage (mkObj [("error", mkObj [("message", JSVal.vstr ("nested msg"))])]) =
        "nested msg" :=
  ⟨claim_C9_message_extraction_priority.1 ("boom"),
    claim_C9_message_extraction_priority.2.1 ("kaput") JSFields.nil (by decide),
    claim_C9_message_extraction_priority.2.2.1 ("nested msg") JSFields.nil JSFields.nil
      (by decide)⟩

/-- C10: all classifier functions are total on arbitrary input — in
particular, on `null` and `undefined` they return the documented inert
values (`""`, `undefined`, `undefined`, false respectively) rather than
throwing. -/
theorem claim_C10_classifier_totality_nullish :
    extractErrorMessage JSVal.null = "" ∧
      extractErrorMessage JSVal.undef = "" ∧
      extractStatusCode JSVal.null = none ∧
      extractStatusCode JSVal.undef = none ∧
      getRetryAfterMs JSVal.null = none ∧
      getRetryAfterMs JSVal.undef = none ∧
      isRetryableError JSVal.null = false ∧
      isRetryableError JSVal.undef = false :=
  ⟨rfl, rfl, rfl, rfl, rfl, rfl, rfl, rfl⟩
